import Mathlib

/-!
Shallow embedding of the TrendPulse backend (`main.py`): the trend-analysis
pipeline (fetch with retry, cleaning, slope/score/confidence classification,
memoization cache) and its `analyze` orchestration.  Python floats are
modelled as exact rationals (all arithmetic in the program stays exact on
the inputs it handles), Python ints as `Int`, pandas DataFrames as
association lists from column names to value columns, and exceptions as
`Except` values.
-/

/-- Python `int(v)` applied to a float: truncation toward zero. -/
def pyInt (q : ℚ) : Int := q.num.tdiv q.den

/-- Python `round(x)` on a float: round half to even (banker's rounding). -/
def pyRound (q : ℚ) : Int :=
  if q - ⌊q⌋ < 1/2 then ⌊q⌋
  else if 1/2 < q - ⌊q⌋ then ⌊q⌋ + 1
  else if ⌊q⌋ % 2 = 0 then ⌊q⌋ else ⌊q⌋ + 1

/-- Python `str.strip()`: drop whitespace from both ends. -/
def pyStrip (s : String) : String :=
  String.mk (((s.data.dropWhile Char.isWhitespace).reverse.dropWhile Char.isWhitespace).reverse)

/-- Python `str.lower()`: lowercase every character. -/
def pyLower (s : String) : String :=
  String.mk (s.data.map Char.toLower)

/-- Keyword normalization used by `analyze`: `request.keyword.strip().lower()`. -/
def normalizeKeyword (s : String) : String := pyLower (pyStrip s)

/-- Embedding of `calculate_slope` from `main.py`: least-squares slope of the
values against their 0-based index, `0.0` for fewer than two points or a zero
denominator. -/
def calculate_slope (data_points : List Int) : ℚ :=
  let n := data_points.length
  if n < 2 then 0
  else
    let x : List Int := (List.range n).map Int.ofNat
    let y := data_points
    let sum_x : Int := x.sum
    let sum_y : Int := y.sum
    let sum_xy : Int := ((List.range n).map (fun i => x.getD i 0 * y.getD i 0)).sum
    let sum_x_squared : Int := (x.map (fun xi => xi ^ 2)).sum
    let denominator : Int := (n : Int) * sum_x_squared - sum_x ^ 2
    if denominator = 0 then 0
    else (((n : Int) * sum_xy - sum_x * sum_y : Int) : ℚ) / ((denominator : Int) : ℚ)

/-- Embedding of `classify_trend` from `main.py`. -/
def classify_trend (slope : ℚ) : String :=
  if slope > 0.8 then "Rising"
  else if slope < -0.8 then "Declining"
  else "Stable"

/-- Embedding of `calculate_score` from `main.py`: clamp `slope*12 + 50` to
[0, 100], then round. -/
def calculate_score (slope : ℚ) : Int :=
  let score := slope * 12 + 50
  let score := max 0 (min 100 score)
  pyRound score

/-- Embedding of `determine_confidence` from `main.py`. -/
def determine_confidence (slope : ℚ) : String :=
  let abs_slope := |slope|
  if abs_slope > 1.2 then "High"
  else if abs_slope > 0.6 then "Medium"
  else "Low"

/-- Embedding of `get_best_posting_time` from `main.py` (dict lookup with a
default). -/
def get_best_posting_time (trend : String) : String :=
  if trend = "Rising" then "7 PM – 10 PM"
  else if trend = "Stable" then "12 PM – 3 PM"
  else if trend = "Declining" then "9 AM – 12 PM"
  else "12 PM – 3 PM"

/-- Pandas DataFrame, as far as this program observes it: an ordered list of
named columns, each a list of (float) values in chronological row order. -/
structure DataFrame where
  cols : List (String × List ℚ)
deriving DecidableEq

/-- Column names of the frame (`data.columns`). -/
def DataFrame.columns (d : DataFrame) : List String := d.cols.map Prod.fst

/-- Pandas `DataFrame.empty`: true when the frame has no columns or no rows. -/
def DataFrame.empty (d : DataFrame) : Bool :=
  d.cols.isEmpty || d.cols.all (fun c => c.2.isEmpty)

/-- Pandas `data.drop(columns=[name])`. -/
def DataFrame.drop (d : DataFrame) (name : String) : DataFrame :=
  ⟨d.cols.filter (fun c => c.1 ≠ name)⟩

/-- Embedding of `clean_data` from `main.py`.  A missing keyword column is a
`KeyError`, surfaced as `.error` with the key as message. -/
def clean_data (data : Option DataFrame) (keyword : String) :
    Except String (List Int) :=
  match data with
  | none => .ok []
  | some d =>
    if d.empty then .ok []
    else
      let d2 := if d.columns.contains "isPartial" then d.drop "isPartial" else d
      match d2.cols.lookup keyword with
      | none => .error keyword
      | some values =>
        let last_7 := if values.length ≥ 7 then values.drop (values.length - 7) else values
        .ok (last_7.map pyInt)

/-- Whether an exception message carries the rate-limit signal:
Python's `'429' in str(e)`. -/
def has429 (msg : String) : Bool := decide ("429".data <:+: msg.data)

/-- Outcome of one provider query (`build_payload` + `interest_over_time`):
either a data frame or a raised exception with its message. -/
inductive FetchOutcome where
  | ok (data : DataFrame)
  | err (msg : String)
deriving DecidableEq

/-- Observable effects of `fetch_trends_data`: sleeping, querying the
provider, and rebuilding the provider client (`pytrend = get_pytrend()`). -/
inductive FetchEvent where
  | sleep (t : ℕ)
  | query
  | rebuild
deriving DecidableEq

/-- Provider behaviour for one keyword: the outcome of each successive
attempt (attempt index 0, 1, ...). -/
abbrev Provider := String → ℕ → FetchOutcome

/-- Retry loop of `fetch_trends_data`: `attempt` is the current 0-based
attempt index and `remaining` the number of loop iterations left; the result
is paired with the trace of effects.  `remaining = 0` falls through to the
dead `return None`. -/
def fetchLoop (p : ℕ → FetchOutcome) (attempt : ℕ) :
    (remaining : ℕ) → Except String (Option DataFrame) × List FetchEvent
  | 0 => (.ok none, [])
  | remaining + 1 =>
    match p attempt with
    | .ok d => (.ok (some d), [.sleep 2, .query])
    | .err msg =>
      if has429 msg = true ∧ 0 < remaining then
        let rest := fetchLoop p (attempt + 1) remaining
        (rest.1, .sleep 2 :: .query :: .sleep ((attempt + 1) * 10) :: .rebuild :: rest.2)
      else (.error msg, [.sleep 2, .query])

/-- Embedding of `fetch_trends_data` from `main.py`. -/
def fetch_trends_data (provider : Provider) (keyword : String)
    (max_retries : ℕ := 3) : Except String (Option DataFrame) × List FetchEvent :=
  fetchLoop (provider keyword) 0 max_retries

/-- Provider suggestions for one keyword: either a raised exception or a list
of suggestion entries, each with an optional `'title'` field. -/
abbrev Suggestions := String → Except String (List (Option String))

/-- Embedding of `fetch_related_keywords` from `main.py`: any failure is
swallowed into `[]`; otherwise the titles of the first `limit` suggestions
that have one. -/
def fetch_related_keywords (sugg : Suggestions) (keyword : String)
    (limit : ℕ := 3) : List String :=
  match sugg keyword with
  | .error _ => []
  | .ok l => (l.take limit).filterMap id

/-- HTTPException as the program raises it: status code and detail string. -/
structure HTTPError where
  status_code : ℕ
  detail : String
deriving DecidableEq

/-- Response body of a successful `analyze` call. -/
structure AnalyzeResponse where
  trend : String
  score : Int
  confidence : String
  related_keywords : List String
  best_posting_time : String
  graph_data : List Int
deriving DecidableEq

/-- The module-level `cache` dict: normalized keyword to cached response, in
insertion order. -/
abbrev Cache := List (String × AnalyzeResponse)

/-- Python dict assignment `cache[keyword] = response`: replace in place if
the key is present, otherwise append. -/
def dictSet (c : Cache) (k : String) (v : AnalyzeResponse) : Cache :=
  if (c.lookup k).isSome then c.map (fun p => if p.1 = k then (k, v) else p)
  else c ++ [(k, v)]

/-- Exceptions that can escape the `try` block of `analyze`: an
`HTTPException` or a generic exception with its message. -/
inductive Exc where
  | http (e : HTTPError)
  | generic (msg : String)
deriving DecidableEq

/-- External world as `analyze` observes it: the trends provider and the
suggestions endpoint. -/
structure Env where
  provider : Provider
  suggestions : Suggestions

/-- Body of the `try` block of `analyze`, for an already normalized,
non-empty, uncached keyword: either an exception or the response paired with
the updated cache. -/
def analyze_core (env : Env) (c : Cache) (keyword : String) :
    Except Exc (AnalyzeResponse × Cache) :=
  match (fetch_trends_data env.provider keyword 3).1 with
  | .error msg => .error (.generic msg)
  | .ok raw_data =>
    if raw_data.elim true DataFrame.empty = true then
      .error (.http ⟨404, "No trend data found for keyword: " ++ keyword⟩)
    else
      match clean_data raw_data keyword with
      | .error m => .error (.generic m)
      | .ok graph_data =>
        if graph_data.length < 2 then
          .error (.http ⟨400, "Insufficient data points for analysis"⟩)
        else
          let slope := calculate_slope graph_data
          let trend := classify_trend slope
          let score := calculate_score slope
          let confidence := determine_confidence slope
          let best_posting_time := get_best_posting_time trend
          let related_keywords := fetch_related_keywords env.suggestions keyword 3
          let response : AnalyzeResponse :=
            ⟨trend, score, confidence, related_keywords, best_posting_time, graph_data⟩
          .ok (response, dictSet c keyword response)

/-- Result of one `analyze` call: the HTTP-level outcome, the cache state
after the call, and how many times `fetch_trends_data` and the suggestions
endpoint were invoked. -/
structure AnalyzeOut where
  result : Except HTTPError AnalyzeResponse
  cache : Cache
  fetchCalls : ℕ
  suggestCalls : ℕ

/-- Embedding of the `analyze` endpoint handler from `main.py`. -/
def analyze (env : Env) (c : Cache) (raw_keyword : String) : AnalyzeOut :=
  let keyword := normalizeKeyword raw_keyword
  if keyword = "" then ⟨.error ⟨400, "Keyword cannot be empty"⟩, c, 0, 0⟩
  else
    match c.lookup keyword with
    | some r => ⟨.ok r, c, 0, 0⟩
    | none =>
      match analyze_core env c keyword with
      | .ok (r, c2) => ⟨.ok r, c2, 1, 1⟩
      | .error (.http e) => ⟨.error e, c, 1, 0⟩
      | .error (.generic msg) =>
        if has429 msg = true then
          ⟨.error ⟨429, "Google Trends rate limit reached. Please try again in a few minutes."⟩, c, 1, 0⟩
        else
          ⟨.error ⟨500, "Error analyzing keyword: " ++ msg⟩, c, 1, 0⟩

/-- Least-squares slope as the specification states it, written independently
over `Finset.range`: `m = (n·Σxy − Σx·Σy) / (n·Σx² − (Σx)²)` with `x_i = i`. -/
def olsSlopeSpec (y : List Int) : ℚ :=
  let n := y.length
  let sx : ℚ := ∑ i in Finset.range n, (i : ℚ)
  let sy : ℚ := ∑ i in Finset.range n, (y.getD i 0 : ℚ)
  let sxy : ℚ := ∑ i in Finset.range n, (i : ℚ) * (y.getD i 0 : ℚ)
  let sxx : ℚ := ∑ i in Finset.range n, (i : ℚ) ^ 2
  ((n : ℚ) * sxy - sx * sy) / ((n : ℚ) * sxx - sx ^ 2)

/-- Round half up, the alternative reading of the specification's "round";
compared against the code's banker's rounding. -/
def roundHalfUpSpec (q : ℚ) : Int := ⌊q + 1/2⌋

lemma floor_le_pyRound (q : ℚ) : ⌊q⌋ ≤ pyRound q := by
  unfold pyRound; split_ifs <;> omega

lemma pyRound_le_floor_add_one (q : ℚ) : pyRound q ≤ ⌊q⌋ + 1 := by
  unfold pyRound; split_ifs <;> omega

lemma pyRound_mono {q r : ℚ} (h : q ≤ r) : pyRound q ≤ pyRound r := by
  rcases lt_or_le ⌊q⌋ ⌊r⌋ with hf | hf
  · calc pyRound q ≤ ⌊q⌋ + 1 := pyRound_le_floor_add_one q
      _ ≤ ⌊r⌋ := by omega
      _ ≤ pyRound r := floor_le_pyRound r
  · have hfe : ⌊r⌋ = ⌊q⌋ := le_antisymm hf (Int.floor_le_floor h)
    unfold pyRound
    rw [hfe]
    split_ifs <;> first | omega | (exfalso; linarith)

lemma pyRound_intCast (n : ℤ) : pyRound ((n : ℚ)) = n := by
  unfold pyRound
  rw [Int.floor_intCast]
  norm_num

/-- C6: for every slope `s`, `classify_trend s` is exactly one of
Rising/Stable/Declining, with Rising iff `s > 0.8`, Declining iff
`s < -0.8`, Stable otherwise; the thresholds are exclusive, so
`classify_trend 0.8 = "Stable"` and `classify_trend (-0.8) = "Stable"`. -/
theorem classify_trend_trichotomy :
    (∀ s : ℚ, classify_trend s = "Rising" ↔ 0.8 < s) ∧
    (∀ s : ℚ, classify_trend s = "Declining" ↔ s < -0.8) ∧
    (∀ s : ℚ, classify_trend s = "Stable" ↔ -0.8 ≤ s ∧ s ≤ 0.8) ∧
    (∀ s : ℚ, classify_trend s = "Rising" ∨ classify_trend s = "Stable" ∨
      classify_trend s = "Declining") ∧
    classify_trend 0.8 = "Stable" ∧ classify_trend (-0.8) = "Stable" := by
  refine ⟨fun s => ?_, fun s => ?_, fun s => ?_, fun s => ?_, ?_, ?_⟩
  · unfold classify_trend
    split_ifs with h1 h2 <;> simp_all
  · unfold classify_trend
    split_ifs with h1 h2 <;> simp_all <;> linarith
  · unfold classify_trend
    split_ifs with h1 h2 <;> simp_all
  · unfold classify_trend
    split_ifs <;> simp
  · norm_num [classify_trend]
  · norm_num [classify_trend]

/-- C9: a Rising or Declining verdict is never paired with Low confidence:
whenever `classify_trend s` is not `"Stable"` (so `|s| > 0.8`),
`determine_confidence s` is `"Medium"` or `"High"`. -/
theorem non_stable_confidence :
    ∀ s : ℚ, classify_trend s ≠ "Stable" →
      determine_confidence s = "Medium" ∨ determine_confidence s = "High" := by
  intro s h
  have habs : 0.8 < |s| := by
    unfold classify_trend at h
    split_ifs at h with h1 h2
    · exact lt_abs.mpr (Or.inl h1)
    · exact lt_abs.mpr (Or.inr (by linarith))
    · simp at h
  show (if |s| > 1.2 then "High" else if |s| > 0.6 then "Medium" else "Low") = "Medium" ∨
    (if |s| > 1.2 then "High" else if |s| > 0.6 then "Medium" else "Low") = "High"
  split_ifs with h1 h2
  · right; rfl
  · left; rfl
  · exfalso
    rw [not_lt] at h2
    norm_num at h2 habs
    linarith

/-- C9 witness at `s = 1`. -/
theorem non_stable_confidence_witness :
    determine_confidence 1 = "Medium" ∨ determine_confidence 1 = "High" :=
  non_stable_confidence 1 (by norm_num [classify_trend]; decide)

/-- C7: `calculate_score s` is `round(clamp(s*12 + 50, 0, 100))` with the
clamp applied before rounding, always lands in [0, 100], is non-decreasing
in `s`, and takes the values 50 at 0, 100 at 10 (clamped) and 0 at -10
(clamped). -/
theorem calculate_score_spec :
    (∀ s : ℚ, calculate_score s = pyRound (max 0 (min 100 (s * 12 + 50)))) ∧
    (∀ s : ℚ, 0 ≤ calculate_score s ∧ calculate_score s ≤ 100) ∧
    (∀ s t : ℚ, s ≤ t → calculate_score s ≤ calculate_score t) ∧
    calculate_score 0 = 50 ∧ calculate_score 10 = 100 ∧
    calculate_score (-10) = 0 := by
  have hpz : pyRound ((0 : ℚ)) = 0 := by
    have := pyRound_intCast 0; simpa using this
  have hph : pyRound ((100 : ℚ)) = 100 := by
    have := pyRound_intCast 100; simpa using this
  refine ⟨fun s => rfl, fun s => ⟨?_, ?_⟩, fun s t hst => ?_, ?_, ?_, ?_⟩
  · calc (0 : ℤ) = pyRound 0 := hpz.symm
      _ ≤ pyRound (max 0 (min 100 (s * 12 + 50))) := pyRound_mono (le_max_left _ _)
  · calc calculate_score s ≤ pyRound 100 :=
        pyRound_mono (max_le (by norm_num) (min_le_left _ _))
      _ = 100 := hph
  · exact pyRound_mono (max_le_max le_rfl (min_le_min le_rfl (by linarith)))
  · norm_num [calculate_score, pyRound]
  · norm_num [calculate_score, pyRound]
  · norm_num [calculate_score, pyRound]

/-- C7 witness: the monotonicity part applied at `s = 0 ≤ t = 1`. -/
theorem calculate_score_spec_witness :
    calculate_score 0 ≤ calculate_score 1 :=
  calculate_score_spec.2.2.1 0 1 (by norm_num)

/-- C10: `calculate_score` rounds halves to the nearest even integer: when
the clamped value equals `k + 1/2` for an integer `k` in [0, 99], the score
is the even member of `{k, k+1}`; in particular score(1/8) = 52 (from 51.5)
and score(3/8) = 54 (from 54.5), whereas a round-half-up reading would give
55 at 54.5. -/
theorem calculate_score_half_even :
    (∀ (s : ℚ) (k : ℤ), 0 ≤ k → k ≤ 99 →
        max 0 (min 100 (s * 12 + 50)) = (k : ℚ) + 1/2 →
        calculate_score s = if k % 2 = 0 then k else k + 1) ∧
    calculate_score (1/8) = 52 ∧ calculate_score (3/8) = 54 ∧
    roundHalfUpSpec (109/2) = 55 ∧
    calculate_score (3/8) ≠ roundHalfUpSpec (109/2) := by
  have hmain : ∀ (s : ℚ) (k : ℤ), 0 ≤ k → k ≤ 99 →
      max 0 (min 100 (s * 12 + 50)) = (k : ℚ) + 1/2 →
      calculate_score s = if k % 2 = 0 then k else k + 1 := by
    intro s k _ _ h
    show pyRound (max 0 (min 100 (s * 12 + 50))) = _
    rw [h]
    have hfl : ⌊(k : ℚ) + 1/2⌋ = k := by
      rw [Int.floor_eq_iff]
      constructor <;> push_cast <;> linarith
    unfold pyRound
    rw [hfl]
    have hfr : (k : ℚ) + 1/2 - k = 1/2 := by ring
    rw [hfr]
    norm_num
  have h2 : calculate_score (1/8) = 52 := by norm_num [calculate_score, pyRound]
  have h3 : calculate_score (3/8) = 54 := by norm_num [calculate_score, pyRound]
  have h4 : roundHalfUpSpec (109/2) = 55 := by norm_num [roundHalfUpSpec]
  exact ⟨hmain, h2, h3, h4, by rw [h3, h4]; omega⟩

/-- C10 witness: the half-even rule applied at `s = 1/8`, `k = 51` (clamped
value 51.5, odd floor, rounds up to 52). -/
theorem calculate_score_half_even_witness :
    calculate_score (1/8) = if (51 : ℤ) % 2 = 0 then 51 else 51 + 1 :=
  calculate_score_half_even.1 (1/8) 51 (by norm_num) (by norm_num) (by norm_num)

lemma sum_map_range {M : Type} [AddCommMonoid M] (f : ℕ → M) (n : ℕ) :
    ((List.range n).map f).sum = ∑ i in Finset.range n, f i := by
  induction n with
  | zero => simp
  | succ n ih =>
    rw [List.range_succ, List.map_append, List.sum_append, Finset.sum_range_succ, ih]
    simp

lemma getD_range_int (n i : ℕ) (h : i < n) :
    ((List.range n).map Int.ofNat).getD i 0 = (i : ℤ) := by
  rw [List.getD_eq_getElem?_getD, List.getElem?_map, List.getElem?_range h]
  rfl

lemma list_sum_getD (y : List ℤ) :
    y.sum = ∑ i in Finset.range y.length, y.getD i 0 := by
  induction y with
  | nil => simp
  | cons a t ih =>
    rw [List.sum_cons, List.length_cons, Finset.sum_range_succ']
    simp only [List.getD_cons_succ, List.getD_cons_zero]
    rw [← ih]
    ring

lemma sum_range_id_int (n : ℕ) :
    (∑ i in Finset.range n, (i : ℤ)) * 2 = n * (n - 1) := by
  induction n with
  | zero => simp
  | succ n ih =>
    rw [Finset.sum_range_succ]
    push_cast
    push_cast at ih
    ring_nf
    ring_nf at ih
    linarith

lemma sum_range_sq_int (n : ℕ) :
    (∑ i in Finset.range n, (i : ℤ) ^ 2) * 6 = n * (n - 1) * (2 * n - 1) := by
  induction n with
  | zero => simp
  | succ n ih =>
    rw [Finset.sum_range_succ]
    push_cast
    push_cast at ih
    ring_nf
    ring_nf at ih
    nlinarith [ih]

lemma slope_denominator_closed (n : ℕ) :
    ((n : ℤ) * (∑ i in Finset.range n, (i : ℤ) ^ 2) -
      (∑ i in Finset.range n, (i : ℤ)) ^ 2) * 12 =
    (n : ℤ) ^ 2 * ((n : ℤ) - 1) * ((n : ℤ) + 1) := by
  have h1 := sum_range_id_int n
  have h2 := sum_range_sq_int n
  have h1sq : ((∑ i in Finset.range n, (i : ℤ)) * 2) ^ 2 = ((n : ℤ) * (n - 1)) ^ 2 := by
    rw [h1]
  nlinarith [h1sq, h2]

lemma slope_denominator_pos {n : ℕ} (hn : 2 ≤ n) :
    0 < (n : ℤ) * (∑ i in Finset.range n, (i : ℤ) ^ 2) -
      (∑ i in Finset.range n, (i : ℤ)) ^ 2 := by
  have h := slope_denominator_closed n
  have hn' : (2 : ℤ) ≤ (n : ℤ) := by exact_mod_cast hn
  have hsq : (0 : ℤ) < (n : ℤ) ^ 2 := by nlinarith
  have hpos : (0 : ℤ) < (n : ℤ) ^ 2 * ((n : ℤ) - 1) * ((n : ℤ) + 1) :=
    mul_pos (mul_pos hsq (by linarith)) (by linarith)
  linarith

lemma slope_eq_spec (y : List ℤ) : calculate_slope y = olsSlopeSpec y := by
  by_cases hn : y.length < 2
  · have h01 : y.length = 0 ∨ y.length = 1 := by omega
    rcases h01 with h | h
    · rw [List.length_eq_zero] at h
      subst h
      simp [calculate_slope, olsSlopeSpec]
    · rcases List.length_eq_one.mp h with ⟨a, rfl⟩
      simp [calculate_slope, olsSlopeSpec, Finset.sum_range_one]
  · have e1 : ((List.range y.length).map Int.ofNat).sum
        = ∑ i in Finset.range y.length, (i : ℤ) :=
      (sum_map_range Int.ofNat _).trans (Finset.sum_congr rfl (fun i _ => rfl))
    have exy : ((List.range y.length).map
          (fun i => ((List.range y.length).map Int.ofNat).getD i 0 * y.getD i 0)).sum
        = ∑ i in Finset.range y.length, (i : ℤ) * y.getD i 0 := by
      rw [sum_map_range]
      exact Finset.sum_congr rfl
        (fun i hi => by rw [getD_range_int _ _ (Finset.mem_range.mp hi)])
    have exx : (((List.range y.length).map Int.ofNat).map (fun xi => xi ^ 2)).sum
        = ∑ i in Finset.range y.length, (i : ℤ) ^ 2 := by
      rw [List.map_map, sum_map_range]
      exact Finset.sum_congr rfl (fun i _ => rfl)
    have ey : y.sum = ∑ i in Finset.range y.length, y.getD i 0 := list_sum_getD y
    simp only [calculate_slope, olsSlopeSpec, if_neg hn]
    rw [e1, exy, exx, ey]
    by_cases hd : (y.length : ℤ) * (∑ i in Finset.range y.length, (i : ℤ) ^ 2)
        - (∑ i in Finset.range y.length, (i : ℤ)) ^ 2 = 0
    · rw [if_pos hd]
      have hdq : (y.length : ℚ) * (∑ i in Finset.range y.length, (i : ℚ) ^ 2)
          - (∑ i in Finset.range y.length, (i : ℚ)) ^ 2 = 0 := by
        have := congrArg (fun z : ℤ => (z : ℚ)) hd
        push_cast at this ⊢
        linarith
      rw [hdq]
      simp
    · rw [if_neg hd]
      push_cast
      ring

/-- C5: `calculate_slope` computes the ordinary least-squares regression
coefficient `m = (n·Σxy − Σx·Σy) / (n·Σx² − (Σx)²)` of value against 0-based
index, returns 0 when `n < 2` or when the denominator is zero (which cannot
occur for `n ≥ 2`), and `calculate_slope [10,20,30,40,50,60,70] = 10`
exactly. -/
theorem calculate_slope_ols :
    (∀ y : List Int, calculate_slope y = olsSlopeSpec y) ∧
    (∀ y : List Int, y.length < 2 → calculate_slope y = 0) ∧
    (∀ y : List Int,
        (y.length : ℤ) * ((((List.range y.length).map Int.ofNat).map (fun xi => xi ^ 2)).sum)
          - (((List.range y.length).map Int.ofNat).sum) ^ 2 = 0 →
        calculate_slope y = 0) ∧
    (∀ y : List Int, 2 ≤ y.length →
        (y.length : ℤ) * ((((List.range y.length).map Int.ofNat).map (fun xi => xi ^ 2)).sum)
          - (((List.range y.length).map Int.ofNat).sum) ^ 2 ≠ 0) ∧
    calculate_slope [10, 20, 30, 40, 50, 60, 70] = 10 := by
  have hden : ∀ y : List Int,
      (y.length : ℤ) * ((((List.range y.length).map Int.ofNat).map (fun xi => xi ^ 2)).sum)
        - (((List.range y.length).map Int.ofNat).sum) ^ 2
      = (y.length : ℤ) * (∑ i in Finset.range y.length, (i : ℤ) ^ 2)
        - (∑ i in Finset.range y.length, (i : ℤ)) ^ 2 := by
    intro y
    rw [List.map_map, sum_map_range,
      (sum_map_range Int.ofNat _).trans (Finset.sum_congr rfl (fun i _ => rfl))]
    exact congrArg (fun z => (y.length : ℤ) * z - _ ^ 2)
      (Finset.sum_congr rfl (fun i _ => rfl))
  refine ⟨slope_eq_spec, fun y h => ?_, fun y h => ?_, fun y h => ?_, ?_⟩
  · simp only [calculate_slope, if_pos h]
  · by_cases hn : y.length < 2
    · simp only [calculate_slope, if_pos hn]
    · simp only [calculate_slope, if_neg hn]
      rw [if_pos h]
  · rw [hden y]
    exact ne_of_gt (slope_denominator_pos h)
  · norm_num [calculate_slope, List.range_succ]

/-- C5 witness: the `n < 2` clause at `[5]` and the nonzero-denominator
clause at a 7-point series. -/
theorem calculate_slope_ols_witness :
    calculate_slope [5] = 0 ∧
    (([10, 20, 30, 40, 50, 60, 70] : List Int).length : ℤ) *
        ((((List.range ([10, 20, 30, 40, 50, 60, 70] : List Int).length).map Int.ofNat).map
          (fun xi => xi ^ 2)).sum)
      - (((List.range ([10, 20, 30, 40, 50, 60, 70] : List Int).length).map Int.ofNat).sum) ^ 2 ≠ 0 :=
  ⟨calculate_slope_ols.2.1 [5] (by norm_num),
   calculate_slope_ols.2.2.2.1 [10, 20, 30, 40, 50, 60, 70] (by norm_num)⟩

lemma pyInt_of_nonneg {q : ℚ} (h : 0 ≤ q) : pyInt q = ⌊q⌋ := by
  unfold pyInt
  rw [Int.tdiv_eq_ediv (Rat.num_nonneg.mpr h) (Int.natCast_nonneg q.den)]
  rw [Rat.floor_def]

lemma pyInt_of_nonpos {q : ℚ} (h : q ≤ 0) : pyInt q = ⌈q⌉ := by
  have h2 : (0 : ℚ) ≤ -q := by linarith
  have hneg : pyInt (-q) = ⌊-q⌋ := pyInt_of_nonneg h2
  unfold pyInt at hneg ⊢
  rw [Rat.num_neg_eq_neg_num, Rat.den_neg_eq_den, Int.neg_tdiv] at hneg
  have hc : ⌊-q⌋ = -⌈q⌉ := Int.floor_neg
  omega

/-- C8: `clean_data` returns `[]` on absent or empty input; otherwise it
drops the `isPartial` column if present, extracts the keyword's column,
keeps exactly the last 7 values (all of them when fewer) in chronological
order, and truncates each value to an integer (floor for nonnegative,
ceiling for nonpositive values, i.e. truncation toward zero). -/
theorem clean_data_spec :
    (∀ kw, clean_data none kw = .ok []) ∧
    (∀ (d : DataFrame) kw, d.empty = true → clean_data (some d) kw = .ok []) ∧
    (∀ (d : DataFrame) (kw : String) (vs : List ℚ), d.empty = false →
        ((if d.columns.contains "isPartial" then d.drop "isPartial" else d).cols.lookup kw)
          = some vs →
        clean_data (some d) kw = .ok ((vs.drop (vs.length - 7)).map pyInt) ∧
        ((vs.drop (vs.length - 7)).map pyInt).length = min vs.length 7 ∧
        (vs.drop (vs.length - 7)).map pyInt <:+ vs.map pyInt) ∧
    (∀ v : ℚ, 0 ≤ v → pyInt v = ⌊v⌋) ∧
    (∀ v : ℚ, v ≤ 0 → pyInt v = ⌈v⌉) := by
  refine ⟨fun kw => rfl, fun d kw h => ?_, fun d kw vs hne hlk => ⟨?_, ?_, ?_⟩,
    fun v hv => pyInt_of_nonneg hv, fun v hv => pyInt_of_nonpos hv⟩
  · simp only [clean_data, h, if_true]
  · simp only [clean_data, hne, Bool.false_eq_true, if_false]
    rw [hlk]
    dsimp only
    by_cases h7 : vs.length ≥ 7
    · rw [if_pos h7]
    · rw [if_neg h7]
      have h0 : vs.length - 7 = 0 := by omega
      rw [h0, List.drop_zero]
  · simp only [List.length_map, List.length_drop]
    omega
  · rw [List.map_drop]
    exact List.drop_suffix _ _

/-- C8 witness: a 10-point frame with an `isPartial` column yields exactly
the (truncated) last 7 points of the keyword column. -/
theorem clean_data_spec_witness :
    clean_data
        (some ⟨[("coffee", [1, 2, 3, 4, 5, 6, 7, 8, 9, 10]),
                ("isPartial", [0, 0, 0, 0, 0, 0, 0, 0, 0, 0])]⟩) "coffee"
      = .ok ((([1, 2, 3, 4, 5, 6, 7, 8, 9, 10] : List ℚ).drop
          (([1, 2, 3, 4, 5, 6, 7, 8, 9, 10] : List ℚ).length - 7)).map pyInt) ∧
    ((([1, 2, 3, 4, 5, 6, 7, 8, 9, 10] : List ℚ).drop
        (([1, 2, 3, 4, 5, 6, 7, 8, 9, 10] : List ℚ).length - 7)).map pyInt).length
      = min ([1, 2, 3, 4, 5, 6, 7, 8, 9, 10] : List ℚ).length 7 ∧
    (([1, 2, 3, 4, 5, 6, 7, 8, 9, 10] : List ℚ).drop
        (([1, 2, 3, 4, 5, 6, 7, 8, 9, 10] : List ℚ).length - 7)).map pyInt
      <:+ ([1, 2, 3, 4, 5, 6, 7, 8, 9, 10] : List ℚ).map pyInt :=
  clean_data_spec.2.2.1
    ⟨[("coffee", [1, 2, 3, 4, 5, 6, 7, 8, 9, 10]),
      ("isPartial", [0, 0, 0, 0, 0, 0, 0, 0, 0, 0])]⟩ "coffee"
    [1, 2, 3, 4, 5, 6, 7, 8, 9, 10] rfl rfl

/-- C4: `fetch_trends_data` sleeps a fixed 2 units before every attempt; on
a rate-limited failure with attempts remaining it waits `(attempt+1)*10`,
rebuilds the provider client and retries; on any other failure, or once
retries are exhausted, it propagates the failure; and 429 on the first two
attempts with success on the third yields the data in exactly 3 attempts
with waits of 10 then 20 between them. -/
theorem fetch_retry_behavior :
    (∀ (p : ℕ → FetchOutcome) (d : DataFrame) (attempt rem : ℕ),
        p attempt = .ok d →
        fetchLoop p attempt (rem + 1) = (.ok (some d), [.sleep 2, .query])) ∧
    (∀ (p : ℕ → FetchOutcome) (msg : String) (attempt rem : ℕ),
        p attempt = .err msg → has429 msg = false →
        fetchLoop p attempt (rem + 1) = (.error msg, [.sleep 2, .query])) ∧
    (∀ (p : ℕ → FetchOutcome) (msg : String) (attempt : ℕ),
        p attempt = .err msg →
        fetchLoop p attempt 1 = (.error msg, [.sleep 2, .query])) ∧
    (∀ (p : ℕ → FetchOutcome) (msg : String) (attempt rem : ℕ),
        p attempt = .err msg → has429 msg = true → 0 < rem →
        fetchLoop p attempt (rem + 1)
          = ((fetchLoop p (attempt + 1) rem).1,
             .sleep 2 :: .query :: .sleep ((attempt + 1) * 10) :: .rebuild
               :: (fetchLoop p (attempt + 1) rem).2)) ∧
    (∀ (pr : Provider) (kw : String) (d : DataFrame) (msg0 msg1 : String),
        pr kw 0 = .err msg0 → has429 msg0 = true →
        pr kw 1 = .err msg1 → has429 msg1 = true →
        pr kw 2 = .ok d →
        fetch_trends_data pr kw 3
          = (.ok (some d),
             [.sleep 2, .query, .sleep 10, .rebuild,
              .sleep 2, .query, .sleep 20, .rebuild,
              .sleep 2, .query])) := by
  refine ⟨fun p d attempt rem h => ?_, fun p msg attempt rem h h429 => ?_,
    fun p msg attempt h => ?_, fun p msg attempt rem h h429 hrem => ?_,
    fun pr kw d msg0 msg1 h0 h4290 h1 h4291 h2 => ?_⟩
  · simp [fetchLoop, h]
  · simp [fetchLoop, h, h429]
  · simp [fetchLoop, h]
  · simp [fetchLoop, h, h429, hrem]
  · simp [fetch_trends_data, fetchLoop, h0, h1, h2, h4290, h4291]

/-- C4 witness: a provider that answers 429 twice and then succeeds. -/
theorem fetch_retry_behavior_witness :
    fetch_trends_data
        (fun _ n => if n = 2 then .ok ⟨[]⟩ else .err "HTTP Error 429") "k" 3
      = (.ok (some ⟨[]⟩),
         [.sleep 2, .query, .sleep 10, .rebuild,
          .sleep 2, .query, .sleep 20, .rebuild,
          .sleep 2, .query]) :=
  fetch_retry_behavior.2.2.2.2
    (fun _ n => if n = 2 then .ok ⟨[]⟩ else .err "HTTP Error 429") "k" ⟨[]⟩
    "HTTP Error 429" "HTTP Error 429" rfl (by decide) rfl (by decide) rfl

lemma lookup_append_self (c : Cache) (k : String) (v : AnalyzeResponse)
    (h : c.lookup k = none) : (c ++ [(k, v)]).lookup k = some v := by
  induction c with
  | nil => simp
  | cons hd tl ih =>
    rcases hd with ⟨k', v'⟩
    rw [List.cons_append]
    simp only [List.lookup] at h ⊢
    cases hbe : (k == k') with
    | false =>
      rw [hbe] at h
      dsimp only at h ⊢
      exact ih h
    | true =>
      rw [hbe] at h
      simp at h

lemma analyze_core_ok_shape {env : Env} {c : Cache} {k : String}
    {r : AnalyzeResponse} {c2 : Cache}
    (h : analyze_core env c k = .ok (r, c2)) : c2 = dictSet c k r := by
  unfold analyze_core at h
  rcases hf : (fetch_trends_data env.provider k 3).1 with msg | raw
  · rw [hf] at h
    simp at h
  · rw [hf] at h
    dsimp only at h
    by_cases hN : raw.elim true DataFrame.empty = true
    · simp [hN] at h
    · rw [if_neg hN] at h
      rcases hcl : clean_data raw k with m | g
      · rw [hcl] at h
        simp at h
      · rw [hcl] at h
        dsimp only at h
        by_cases hlen : g.length < 2
        · simp [hlen] at h
        · rw [if_neg hlen] at h
          simp only [Except.ok.injEq, Prod.mk.injEq] at h
          rw [← h.2, ← h.1]

/-- C1: `analyze` fails with 400 on an empty normalized keyword, 404 on an
absent or empty fetched series, 400 on fewer than 2 cleaned points; any
generic failure bearing the rate-limit signal becomes 429, every other
generic failure becomes 500 carrying the underlying message, and
`HTTPException`s raised inside the pipeline pass through unchanged. -/
theorem analyze_failure_classification :
    ∀ (env : Env) (c : Cache) (kw : String),
      (normalizeKeyword kw = "" →
        analyze env c kw = ⟨.error ⟨400, "Keyword cannot be empty"⟩, c, 0, 0⟩) ∧
      (normalizeKeyword kw ≠ "" → c.lookup (normalizeKeyword kw) = none →
        ((fetch_trends_data env.provider (normalizeKeyword kw) 3).1 = .ok none ∨
          ∃ d, (fetch_trends_data env.provider (normalizeKeyword kw) 3).1 = .ok (some d) ∧
            d.empty = true) →
        (analyze env c kw).result
          = .error ⟨404, "No trend data found for keyword: " ++ normalizeKeyword kw⟩) ∧
      (∀ (d : DataFrame) (g : List Int),
        normalizeKeyword kw ≠ "" → c.lookup (normalizeKeyword kw) = none →
        (fetch_trends_data env.provider (normalizeKeyword kw) 3).1 = .ok (some d) →
        d.empty = false →
        clean_data (some d) (normalizeKeyword kw) = .ok g → g.length < 2 →
        (analyze env c kw).result = .error ⟨400, "Insufficient data points for analysis"⟩) ∧
      (∀ msg : String, normalizeKeyword kw ≠ "" → c.lookup (normalizeKeyword kw) = none →
        analyze_core env c (normalizeKeyword kw) = .error (.generic msg) → has429 msg = true →
        (analyze env c kw).result
          = .error ⟨429, "Google Trends rate limit reached. Please try again in a few minutes."⟩) ∧
      (∀ msg : String, normalizeKeyword kw ≠ "" → c.lookup (normalizeKeyword kw) = none →
        analyze_core env c (normalizeKeyword kw) = .error (.generic msg) → has429 msg = false →
        (analyze env c kw).result = .error ⟨500, "Error analyzing keyword: " ++ msg⟩) ∧
      (∀ e : HTTPError, normalizeKeyword kw ≠ "" → c.lookup (normalizeKeyword kw) = none →
        analyze_core env c (normalizeKeyword kw) = .error (.http e) →
        (analyze env c kw).result = .error e) := by
  intro env c kw
  refine ⟨fun h => ?_, fun hne hc hf => ?_, fun d g hne hc hfr hd hcl hlen => ?_,
    fun msg hne hc hcore h429 => ?_, fun msg hne hc hcore h429 => ?_,
    fun e hne hc hcore => ?_⟩
  · simp [analyze, h]
  · have hcore : analyze_core env c (normalizeKeyword kw)
        = .error (.http ⟨404, "No trend data found for keyword: " ++ normalizeKeyword kw⟩) := by
      unfold analyze_core
      rcases hf with hnone | ⟨d, hsome, hde⟩
      · rw [hnone]
        rfl
      · rw [hsome]
        dsimp only
        simp [Option.elim, hde]
    simp [analyze, hne, hc, hcore]
  · have hcore : analyze_core env c (normalizeKeyword kw)
        = .error (.http ⟨400, "Insufficient data points for analysis"⟩) := by
      unfold analyze_core
      rw [hfr]
      dsimp only
      simp only [Option.elim, hd, Bool.false_eq_true, if_false]
      rw [hcl]
      dsimp only
      rw [if_pos hlen]
    simp [analyze, hne, hc, hcore]
  · simp [analyze, hne, hc, hcore, h429]
  · simp [analyze, hne, hc, hcore, h429]
  · simp [analyze, hne, hc, hcore]

/-- Provider that reports a frame with a single empty column (no data). -/
def envNoData : Env := ⟨fun _ _ => .ok ⟨[("coffee", [])]⟩, fun _ => .ok []⟩

/-- Provider whose column holds a single point. -/
def envOnePoint : Env := ⟨fun _ _ => .ok ⟨[("coffee", [5])]⟩, fun _ => .ok []⟩

/-- Provider that always raises a rate-limit error. -/
def envRateLimited : Env := ⟨fun _ _ => .err "HTTP Error 429", fun _ => .ok []⟩

/-- Provider that always raises a generic error. -/
def envBoom : Env := ⟨fun _ _ => .err "boom", fun _ => .ok []⟩

/-- C1 witness: each failure class exercised on a concrete environment. -/
theorem analyze_failure_classification_witness :
    analyze envNoData [] "  " = ⟨.error ⟨400, "Keyword cannot be empty"⟩, [], 0, 0⟩ ∧
    (analyze envNoData [] "Coffee").result
      = .error ⟨404, "No trend data found for keyword: " ++ normalizeKeyword "Coffee"⟩ ∧
    (analyze envOnePoint [] "Coffee").result
      = .error ⟨400, "Insufficient data points for analysis"⟩ ∧
    (analyze envRateLimited [] "Coffee").result
      = .error ⟨429, "Google Trends rate limit reached. Please try again in a few minutes."⟩ ∧
    (analyze envBoom [] "Coffee").result
      = .error ⟨500, "Error analyzing keyword: " ++ "boom"⟩ :=
  ⟨(analyze_failure_classification envNoData [] "  ").1 (by decide),
   (analyze_failure_classification envNoData [] "Coffee").2.1 (by decide) rfl
     (Or.inr ⟨⟨[("coffee", [])]⟩, rfl, rfl⟩),
   (analyze_failure_classification envOnePoint [] "Coffee").2.2.1
     ⟨[("coffee", [5])]⟩ ([(5 : ℚ)].map pyInt) (by decide) rfl rfl rfl rfl (by simp),
   (analyze_failure_classification envRateLimited [] "Coffee").2.2.2.1
     "HTTP Error 429" (by decide) rfl rfl (by decide),
   (analyze_failure_classification envBoom [] "Coffee").2.2.2.2.1
     "boom" (by decide) rfl rfl (by decide)⟩

/-- C2: keywords normalizing to the same non-empty string share one cache
entry: after a successful `analyze` call, a subsequent call with either
keyword returns the identical cached result, leaves the cache unchanged,
performs no fetch and no suggestions query, and the provider is fetched at
most once across both calls. -/
theorem analyze_cache_idempotent :
    ∀ (env1 env2 : Env) (c : Cache) (kw1 kw2 : String) (r : AnalyzeResponse),
      normalizeKeyword kw1 = normalizeKeyword kw2 →
      normalizeKeyword kw1 ≠ "" →
      (analyze env1 c kw1).result = .ok r →
      (analyze env2 (analyze env1 c kw1).cache kw2).result = .ok r ∧
      (analyze env2 (analyze env1 c kw1).cache kw2).cache = (analyze env1 c kw1).cache ∧
      (analyze env2 (analyze env1 c kw1).cache kw2).fetchCalls = 0 ∧
      (analyze env2 (analyze env1 c kw1).cache kw2).suggestCalls = 0 ∧
      (analyze env1 c kw1).fetchCalls
        + (analyze env2 (analyze env1 c kw1).cache kw2).fetchCalls ≤ 1 := by
  intro env1 env2 c kw1 kw2 r hnorm hne h1
  have hk2 : normalizeKeyword kw2 = normalizeKeyword kw1 := hnorm.symm
  have hne2 : normalizeKeyword kw2 ≠ "" := by rw [hk2]; exact hne
  rcases hc : c.lookup (normalizeKeyword kw1) with _ | r0
  · rcases hcore : analyze_core env1 c (normalizeKeyword kw1) with ex | pr
    · exfalso
      rcases ex with e | m
      · simp [analyze, hne, hc, hcore] at h1
      · by_cases h429 : has429 m = true
        · simp [analyze, hne, hc, hcore, h429] at h1
        · simp [analyze, hne, hc, hcore, h429] at h1
    · rcases pr with ⟨r0, c2⟩
      have ha1 : analyze env1 c kw1 = ⟨.ok r0, c2, 1, 1⟩ := by
        simp [analyze, hne, hc, hcore]
      have hr : r0 = r := by
        rw [ha1] at h1
        simpa using h1
      subst hr
      have hc2 : c2 = dictSet c (normalizeKeyword kw1) r0 := analyze_core_ok_shape hcore
      have hlk2 : c2.lookup (normalizeKeyword kw1) = some r0 := by
        rw [hc2]
        unfold dictSet
        simp only [hc, Option.isSome_none, Bool.false_eq_true, if_false]
        exact lookup_append_self c _ r0 hc
      have ha2 : analyze env2 c2 kw2 = ⟨.ok r0, c2, 0, 0⟩ := by
        simp [analyze, hk2, hne, hlk2]
      rw [ha1, ha2]
      refine ⟨rfl, rfl, rfl, rfl, by norm_num⟩
  · have ha1 : analyze env1 c kw1 = ⟨.ok r0, c, 0, 0⟩ := by
      simp [analyze, hne, hc]
    have hr : r0 = r := by
      rw [ha1] at h1
      simpa using h1
    subst hr
    have ha2 : analyze env2 c kw2 = ⟨.ok r0, c, 0, 0⟩ := by
      simp [analyze, hk2, hne, hc]
    rw [ha1, ha2]
    refine ⟨rfl, rfl, rfl, rfl, by norm_num⟩

/-- Cached response used by the idempotence and error-path witnesses. -/
def respCached : AnalyzeResponse := ⟨"Stable", 50, "Low", [], "12 PM – 3 PM", [5, 5]⟩

/-- C2 witness: `"Coffee"` and `" COFFEE "` hit the same cache entry. -/
theorem analyze_cache_idempotent_witness :
    (analyze envBoom (analyze envBoom [("coffee", respCached)] "Coffee").cache " COFFEE ").result
      = .ok respCached ∧
    (analyze envBoom (analyze envBoom [("coffee", respCached)] "Coffee").cache " COFFEE ").cache
      = (analyze envBoom [("coffee", respCached)] "Coffee").cache ∧
    (analyze envBoom (analyze envBoom [("coffee", respCached)] "Coffee").cache " COFFEE ").fetchCalls
      = 0 ∧
    (analyze envBoom (analyze envBoom [("coffee", respCached)] "Coffee").cache " COFFEE ").suggestCalls
      = 0 ∧
    (analyze envBoom [("coffee", respCached)] "Coffee").fetchCalls
      + (analyze envBoom (analyze envBoom [("coffee", respCached)] "Coffee").cache " COFFEE ").fetchCalls
      ≤ 1 :=
  analyze_cache_idempotent envBoom envBoom [("coffee", respCached)] "Coffee" " COFFEE "
    respCached (by decide) (by decide) rfl

/-- C3: every failing `analyze` call leaves the cache exactly as it was; the
cache is populated only on success. -/
theorem analyze_error_leaves_cache :
    ∀ (env : Env) (c : Cache) (kw : String) (e : HTTPError),
      (analyze env c kw).result = .error e → (analyze env c kw).cache = c := by
  intro env c kw e h
  by_cases hk : normalizeKeyword kw = ""
  · simp [analyze, hk]
  · rcases hc : c.lookup (normalizeKeyword kw) with _ | r0
    · rcases hcore : analyze_core env c (normalizeKeyword kw) with ex | pr
      · rcases ex with e2 | m
        · simp [analyze, hk, hc, hcore]
        · by_cases h429 : has429 m = true
          · simp [analyze, hk, hc, hcore, h429]
          · simp [analyze, hk, hc, hcore, h429]
      · exfalso
        rcases pr with ⟨r0, c2⟩
        simp [analyze, hk, hc, hcore] at h
    · exfalso
      simp [analyze, hk, hc] at h

/-- C3 witness: a rate-limited failing call leaves an empty cache empty. -/
theorem analyze_error_leaves_cache_witness :
    (analyze envRateLimited [] "Coffee").cache = [] :=
  analyze_error_leaves_cache envRateLimited [] "Coffee"
    ⟨429, "Google Trends rate limit reached. Please try again in a few minutes."⟩ rfl
